import Mathlib

set_option maxRecDepth 4000000
set_option maxHeartbeats 20000000

/-!
Verification of the bonk-staking-rewards client library.

The development shallowly embeds the repository's address-derivation
(`src/pda.rs`), instruction-encoding (`src/instructions.rs`) and client
orchestration (`src/client.rs`) logic.  Identities (Solana public keys) are
32-byte values represented as `List Nat`; machine integers are `Nat` with
explicit reductions modulo `2 ^ w` where the source relies on fixed widths.
The external SDK primitives the repository calls (SHA-256, the ed25519
decompression check, `Pubkey::find_program_address`, base58 text encoding)
are modelled from the spec's description of the external program's
deterministic off-curve address derivation, and are validated against the
repository's recorded regression fixtures.
-/

namespace BonkStaking

/-- The ASCII bytes of a string literal, as the Rust byte-string literals
(`b"..."`) used by the source. -/
def asciiBytes (s : String) : List Nat := s.toList.map Char.toNat

/-- Little-endian byte encoding of a 32-bit integer (`u32::to_le_bytes`).
Arbitrary `Nat` input is reduced modulo `2 ^ 32` by the byte extraction. -/
def u32_le (n : Nat) : List Nat :=
  [n % 256, n / 2 ^ 8 % 256, n / 2 ^ 16 % 256, n / 2 ^ 24 % 256]

/-- Little-endian byte encoding of a 64-bit integer (`u64::to_le_bytes`). -/
def u64_le (n : Nat) : List Nat :=
  [n % 256, n / 2 ^ 8 % 256, n / 2 ^ 16 % 256, n / 2 ^ 24 % 256,
   n / 2 ^ 32 % 256, n / 2 ^ 40 % 256, n / 2 ^ 48 % 256, n / 2 ^ 56 % 256]

/-- The 32-bit mask `2 ^ 32 - 1`. -/
def M32 : Nat := 4294967295

/-- The 512-bit mask `2 ^ 512 - 1`, covering one hash block. -/
def M512 : Nat := Nat.sub (Nat.shiftLeft 1 512) 1

/-- Right rotation of a 32-bit word.  The hash internals are written with
explicit `Nat` primitives so that concrete instances reduce quickly. -/
def rotr32 (x n : Nat) : Nat :=
  Nat.land (Nat.lor (Nat.shiftRight x n) (Nat.shiftLeft x (32 - n))) M32

/-- Modelled from the spec: the SHA-256 `Ch` function, part of the external
hashing primitive behind address derivation. -/
def shaCh (e f g : Nat) : Nat := Nat.xor (Nat.land e f) (Nat.land (Nat.xor e M32) g)

/-- Modelled from the spec: the SHA-256 `Maj` function. -/
def shaMaj (a b c : Nat) : Nat :=
  Nat.xor (Nat.land a b) (Nat.xor (Nat.land a c) (Nat.land b c))

/-- Modelled from the spec: SHA-256 big sigma 0. -/
def bsig0 (a : Nat) : Nat := Nat.xor (rotr32 a 2) (Nat.xor (rotr32 a 13) (rotr32 a 22))

/-- Modelled from the spec: SHA-256 big sigma 1. -/
def bsig1 (e : Nat) : Nat := Nat.xor (rotr32 e 6) (Nat.xor (rotr32 e 11) (rotr32 e 25))

/-- Modelled from the spec: SHA-256 small sigma 0. -/
def ssig0 (x : Nat) : Nat :=
  Nat.xor (rotr32 x 7) (Nat.xor (rotr32 x 18) (Nat.shiftRight x 3))

/-- Modelled from the spec: SHA-256 small sigma 1. -/
def ssig1 (x : Nat) : Nat :=
  Nat.xor (rotr32 x 17) (Nat.xor (rotr32 x 19) (Nat.shiftRight x 10))

/-- Modelled from the spec: the 64 SHA-256 round constants, packed
big-endian into one 2048-bit value (the first constant, 0x428a2f98, in the
topmost 32 bits), read off per round at the same shift as the schedule
word. -/
def shaK : Nat :=
  8399870144517823301722239222130927227141849779511242471197906795369846673996008864786532278482947930035050432913372875699354429524650716672308175015812472005008943341011247634627600705591103756174659437448007297240981034636327441933849465611186184660803773840414514428031635770391245199770927811112653141372483794982516161135727373084047811483050876080270389320947077305721183235613169389468744126235534648516788175255292025668825020963291224099932572215580391753777671218957634024159536228058522778003881673030597872562207069818177476920296259993961459554031943090626293016819766823808480230688357231269177224952050

/-- The running state of a SHA-256 compression. -/
structure ShaState where
  (a b c d e f g h : Nat)
deriving Repr

/-- Extend the message schedule.  The last 16 schedule words travel as one
512-bit packed value (most recent word lowest); each step appends
`ssig1 w[i-2] + w[i-7] + ssig0 w[i-15] + w[i-16]` to the window and to the
packed accumulator of all schedule words. -/
def shaScheduleAux : Nat → Nat → Nat → Nat
  | 0, _, acc => acc
  | fuel + 1, window, acc =>
      let w16 := Nat.land (Nat.shiftRight window 480) M32
      let w15 := Nat.land (Nat.shiftRight window 448) M32
      let w7 := Nat.land (Nat.shiftRight window 192) M32
      let w2 := Nat.land (Nat.shiftRight window 32) M32
      let w := Nat.mod (Nat.add (Nat.add (ssig1 w2) w7) (Nat.add (ssig0 w15) w16)) 4294967296
      shaScheduleAux fuel (Nat.land (Nat.lor (Nat.shiftLeft window 32) w) M512)
        (Nat.lor (Nat.shiftLeft acc 32) w)

/-- The SHA-256 compression rounds; the 64 round constants and the 64
schedule words travel packed in 2048-bit values, with the current round's
pair read off at the given shift. -/
def shaRoundsAux : Nat → Nat → Nat → ShaState → ShaState
  | 0, _, _, st => st
  | fuel + 1, wpack, shift, st =>
      let k := Nat.land (Nat.shiftRight shaK shift) M32
      let w := Nat.land (Nat.shiftRight wpack shift) M32
      let t1 := Nat.mod (Nat.add (Nat.add (Nat.add st.h (bsig1 st.e))
          (Nat.add (shaCh st.e st.f st.g) k)) w) 4294967296
      let t2 := Nat.mod (Nat.add (bsig0 st.a) (shaMaj st.a st.b st.c)) 4294967296
      shaRoundsAux fuel wpack (shift - 32)
        ⟨Nat.mod (Nat.add t1 t2) 4294967296, st.a, st.b, st.c,
         Nat.mod (Nat.add st.d t1) 4294967296, st.e, st.f, st.g⟩

/-- Fold the padded message's 512-bit blocks (packed in one natural number,
read off top-down at the given shift) into the hash state. -/
def shaBlocksAux : Nat → Nat → Nat → ShaState → ShaState
  | 0, _, _, hv => hv
  | fuel + 1, padded, shift, hv =>
      let block := Nat.land (Nat.shiftRight padded shift) M512
      let st := shaRoundsAux 64 (shaScheduleAux 48 block block) 2016 hv
      shaBlocksAux fuel padded (shift - 512)
        ⟨Nat.mod (Nat.add hv.a st.a) 4294967296, Nat.mod (Nat.add hv.b st.b) 4294967296,
         Nat.mod (Nat.add hv.c st.c) 4294967296, Nat.mod (Nat.add hv.d st.d) 4294967296,
         Nat.mod (Nat.add hv.e st.e) 4294967296, Nat.mod (Nat.add hv.f st.f) 4294967296,
         Nat.mod (Nat.add hv.g st.g) 4294967296, Nat.mod (Nat.add hv.h st.h) 4294967296⟩

/-- Interpret a byte list as a big-endian natural number. -/
def bytesToNatBE (l : List Nat) : Nat :=
  l.foldl (fun acc b => Nat.add (Nat.mul acc 256) b) 0

/-- Modelled from the spec: the SHA-256 hash of a byte list, the hashing
step of the external deterministic address derivation.  The message is
padded (`0x80`, zeros to 56 mod 64, 8-byte big-endian bit length) and
packed into one natural number, whose 512-bit blocks are compressed from
the standard initial state. -/
def sha256 (msg : List Nat) : List Nat :=
  let len := msg.length
  let z := (119 - len % 64) % 64
  let paddedLen := len + 1 + z + 8
  let padded := Nat.lor (Nat.shiftLeft (Nat.add (Nat.shiftLeft (bytesToNatBE msg) 8) 128)
      (8 * (z + 8))) (8 * len)
  let hv := shaBlocksAux (paddedLen / 64) padded (8 * paddedLen - 512)
      ⟨1779033703, 3144134277, 1013904242, 2773480762,
       1359893119, 2600822924, 528734635, 1541459225⟩
  [hv.a / 2 ^ 24 % 256, hv.a / 2 ^ 16 % 256, hv.a / 2 ^ 8 % 256, hv.a % 256,
   hv.b / 2 ^ 24 % 256, hv.b / 2 ^ 16 % 256, hv.b / 2 ^ 8 % 256, hv.b % 256,
   hv.c / 2 ^ 24 % 256, hv.c / 2 ^ 16 % 256, hv.c / 2 ^ 8 % 256, hv.c % 256,
   hv.d / 2 ^ 24 % 256, hv.d / 2 ^ 16 % 256, hv.d / 2 ^ 8 % 256, hv.d % 256,
   hv.e / 2 ^ 24 % 256, hv.e / 2 ^ 16 % 256, hv.e / 2 ^ 8 % 256, hv.e % 256,
   hv.f / 2 ^ 24 % 256, hv.f / 2 ^ 16 % 256, hv.f / 2 ^ 8 % 256, hv.f % 256,
   hv.g / 2 ^ 24 % 256, hv.g / 2 ^ 16 % 256, hv.g / 2 ^ 8 % 256, hv.g % 256,
   hv.h / 2 ^ 24 % 256, hv.h / 2 ^ 16 % 256, hv.h / 2 ^ 8 % 256, hv.h % 256]

/-- The ed25519 field prime `2 ^ 255 - 19`. -/
def edP : Nat := Nat.sub (Nat.shiftLeft 1 255) 19

/-- The ed25519 curve constant `d = -121665 / 121666` mod `edP`. -/
def edD : Nat :=
  37095705934669439343138083508754565189542113879843219016388785533085940283555

/-- Modular exponentiation by binary decomposition of the exponent,
fuel-indexed for structural recursion (256 steps suffice for exponents
below `2 ^ 256`). -/
def powModAux : Nat → Nat → Nat → Nat → Nat
  | 0, _, _, m => Nat.mod 1 m
  | fuel + 1, b, e, m =>
      if Nat.beq e 0 then Nat.mod 1 m
      else
        let r := powModAux fuel (Nat.mod (Nat.mul b b) m) (Nat.div e 2) m
        if Nat.beq (Nat.mod e 2) 1 then Nat.mod (Nat.mul r b) m else r

/-- Modular exponentiation for exponents below `2 ^ 256`. -/
def powMod (b e m : Nat) : Nat := powModAux 256 b e m

/-- Interpret a byte list as a little-endian natural number. -/
def leBytesToNat : List Nat → Nat
  | [] => 0
  | b :: rest => Nat.add b (Nat.mul 256 (leBytesToNat rest))

/-- Modelled from the spec: the check that a 32-byte value is a valid
(compressed) ed25519 curve point, i.e. that decompression succeeds.  The
candidate y-coordinate is the low 255 bits; decompression succeeds exactly
when `u / v` with `u = y ^ 2 - 1` and `v = d * y ^ 2 + 1` is a square in
the field, decided by an Euler-criterion test. -/
def ed25519_is_on_curve (bytes : List Nat) : Bool :=
  let y := Nat.mod (leBytesToNat bytes) (Nat.shiftLeft 1 255)
  let y2 := Nat.mod (Nat.mul y y) edP
  let u := Nat.mod (Nat.add y2 (Nat.sub edP 1)) edP
  let v := Nat.mod (Nat.add (Nat.mod (Nat.mul edD y2) edP) 1) edP
  if Nat.beq u 0 then true
  else Nat.beq (powMod (Nat.mod (Nat.mul u v) edP) (Nat.div (Nat.sub edP 1) 2) edP) 1

/-- Errors of the external address-derivation procedure. -/
inductive PubkeyError where
  | InvalidSeeds
  | MaxSeedLengthExceeded
deriving DecidableEq, Repr

/-- The domain-separation marker appended by the external address
derivation. -/
def pdaMarker : List Nat := asciiBytes "ProgramDerivedAddress"

/-- Modelled from the spec: the external program's
`Pubkey::create_program_address`: hash the concatenated seeds with the
target program's identity as domain separator, rejecting candidates that
are valid curve points.  At most 16 seeds of at most 32 bytes each are
accepted. -/
def create_program_address (seeds : List (List Nat)) (program_id : List Nat) :
    Except PubkeyError (List Nat) :=
  if seeds.length > 16 ∨ seeds.any (fun s => s.length > 32) then
    .error .MaxSeedLengthExceeded
  else
    let candidate := sha256 (seeds.foldr (· ++ ·) [] ++ program_id ++ pdaMarker)
    if ed25519_is_on_curve candidate then .error .InvalidSeeds else .ok candidate

/-- The trial loop of `Pubkey::try_find_program_address`: 255 trials with
the bump byte decreasing from 255 (the bump value 0 is never tried). -/
def tryFindAux (seeds : List (List Nat)) (program_id : List Nat) :
    Nat → Nat → Option (List Nat × Nat)
  | 0, _ => none
  | fuel + 1, bump =>
      match create_program_address (seeds ++ [[bump]]) program_id with
      | .ok address => some (address, bump)
      | .error .InvalidSeeds => tryFindAux seeds program_id fuel (bump - 1)
      | .error .MaxSeedLengthExceeded => none

/-- Modelled from the spec: the external program's deterministic off-curve
address derivation (`Pubkey::find_program_address`): repeatedly append a
decreasing trial byte until the hash is provably outside the set of valid
curve points, returning the address and the trial byte used.  The source
unwraps the (astronomically improbable) exhaustion case, embedded here as
`Option`. -/
def find_program_address (seeds : List (List Nat)) (program_id : List Nat) :
    Option (List Nat × Nat) :=
  tryFindAux seeds program_id 255 255

/-- The base58 alphabet used by the textual form of identities, as ASCII
code points. -/
def base58Alphabet : List Nat :=
  asciiBytes "123456789ABCDEFGHJKLMNPQRSTUVWXYZabcdefghijkmnopqrstuvwxyz"

/-- The value of one base58 digit (given as an ASCII code point), if
valid. -/
def base58CharValue (c : Nat) : Option Nat := base58Alphabet.findIdx? (· == c)

/-- Fold a base58 digit string (as code points) into a natural number. -/
def base58DigitsToNat : List Nat → Nat → Option Nat
  | [], acc => some acc
  | c :: cs, acc => (base58CharValue c).bind fun v => base58DigitsToNat cs (acc * 58 + v)

/-- Minimal big-endian byte representation of a natural number
(fuel-indexed; 64 bytes suffice for the sizes that occur here). -/
def natBEBytesAux : Nat → Nat → List Nat
  | 0, _ => []
  | fuel + 1, n => if n = 0 then [] else natBEBytesAux fuel (n / 256) ++ [n % 256]

/-- Modelled from the spec: the external SDK's parsing of the textual
(base58) form of a 32-byte identity (`Pubkey::from_str`); fails unless the
decoded value is exactly 32 bytes.  Each leading `1` digit (code point 49)
contributes one leading zero byte. -/
def pubkeyFromBase58 (s : String) : Option (List Nat) :=
  let cs := asciiBytes s
  (base58DigitsToNat cs 0).bind fun n =>
    let bytes := List.replicate (cs.takeWhile (· == 49)).length 0 ++ natBEBytesAux 64 n
    if bytes.length = 32 then some bytes else none

/-- Minimal base58 digit string (as code points) of a natural number
(fuel-indexed). -/
def base58DigitsAux : Nat → Nat → List Nat
  | 0, _ => []
  | fuel + 1, n =>
      if n = 0 then [] else base58DigitsAux fuel (n / 58) ++ [base58Alphabet.getD (n % 58) 49]

/-- Modelled from the spec: the external SDK's textual (base58) form of a
32-byte identity (`Pubkey::to_string`), used for the byte-exact regression
fixtures. -/
def base58Encode (bytes : List Nat) : String :=
  let zeros := (bytes.takeWhile (· == 0)).length
  String.mk ((List.replicate zeros 49 ++ base58DigitsAux 64 (bytesToNatBE bytes)).map Char.ofNat)

/-! The named constants of `lib.rs`.  In the source each is produced by the
`pubkey!` macro, which decodes the base58 literal to a 32-byte array at
compile time; the byte arrays are embedded directly and
`constants_agree_with_base58_literals` below checks each against its
literal. -/

/-- The BONK token mint (`pubkey!("DezXAZ8z7PnrnRJjz3wXBoRgixCa6xjnB7YaB1pPB263")`). -/
def BONK_MINT : List Nat :=
  [188, 7, 197, 110, 96, 173, 61, 63, 23, 115, 130, 234, 198, 84, 143, 186, 31, 211, 44, 253, 144, 202, 2, 179, 231, 207, 161, 133, 253, 206, 115, 152]

/-- The BONK stake program (`pubkey!("STAKEkKzbdeKkqzKpLkNQD3SUuLgshDKCD7U8duxAbB")`). -/
def BONK_STAKE_PROGRAM_ID : List Nat :=
  [6, 133, 25, 160, 113, 84, 117, 131, 168, 198, 63, 228, 210, 230, 246, 94, 228, 251, 201, 253, 79, 15, 255, 160, 155, 232, 170, 252, 128, 93, 15, 154]

/-- The BONK stake pool (`pubkey!("9AdEE8AAm1XgJrPEs4zkTPozr3o4U5iGbgvPwkNdLDJ3")`). -/
def BONK_STAKE_POOL : List Nat :=
  [121, 84, 175, 148, 248, 108, 179, 238, 55, 228, 2, 211, 66, 94, 173, 179, 59, 200, 91, 185, 60, 38, 184, 41, 15, 13, 127, 123, 10, 221, 198, 164]

/-- The BONK vault (`pubkey!("4XHP9YQeeXPXHAjNXuKio1na1ypcxFSqFYBHtptQticd")`). -/
def BONK_VAULT : List Nat :=
  [52, 85, 2, 16, 182, 140, 124, 202, 109, 217, 24, 84, 74, 80, 207, 121, 38, 15, 204, 133, 110, 87, 65, 72, 140, 7, 117, 247, 139, 121, 177, 94]

/-- The BONK stake mint (`pubkey!("FYUjeMAFjbTzdMG91RSW5P4HT2sT7qzJQgDPiPG9ez9o")`). -/
def BONK_STAKE_MINT : List Nat :=
  [216, 19, 251, 125, 169, 32, 99, 43, 123, 160, 230, 100, 190, 192, 227, 20, 147, 161, 55, 213, 111, 67, 32, 117, 184, 5, 59, 55, 188, 97, 13, 170]

/-- The BONK reward vault 0 (`pubkey!("2PPAJ8P5JgKZjkxq4h3kFSwLcuakFYr4fbV68jGghWxi")`). -/
def BONK_REWARD_VAULT_0 : List Nat :=
  [20, 151, 133, 123, 134, 164, 18, 242, 151, 91, 84, 24, 14, 57, 251, 43, 244, 24, 107, 33, 33, 196, 20, 47, 126, 108, 208, 135, 27, 190, 214, 195]

/-- The SPL token program identity (`spl_token::id()`,
`TokenkegQfeZyiNwAJbNbGKPFXCWuBvf9Ss623VQ5DA`). -/
def TOKEN_PROGRAM_ID : List Nat :=
  [6, 221, 246, 225, 215, 101, 161, 147, 217, 203, 225, 70, 206, 235, 121, 172, 28, 180, 133, 237, 95, 91, 55, 145, 58, 140, 245, 133, 126, 255, 0, 169]

/-- The rent sysvar identity (`sysvar::rent::id()`,
`SysvarRent111111111111111111111111111111111`). -/
def SYSVAR_RENT_ID : List Nat :=
  [6, 167, 213, 23, 25, 44, 92, 81, 33, 140, 201, 76, 61, 74, 241, 127, 88, 218, 238, 8, 155, 161, 253, 68, 227, 219, 217, 138, 0, 0, 0, 0]

/-- The system program identity (`system_program::id()`,
`11111111111111111111111111111111`). -/
def SYSTEM_PROGRAM_ID : List Nat :=
  [0, 0, 0, 0, 0, 0, 0, 0, 0, 0, 0, 0, 0, 0, 0, 0, 0, 0, 0, 0, 0, 0, 0, 0, 0, 0, 0, 0, 0, 0, 0, 0]

/-- The associated-token-account program identity
(`ATokenGPvbdGVxr1b2hvZbsiqW5xWH25efTNsLJA8knL`). -/
def ASSOCIATED_TOKEN_PROGRAM_ID : List Nat :=
  [140, 151, 37, 143, 78, 36, 137, 241, 187, 61, 16, 41, 20, 142, 13, 131, 11, 90, 19, 153, 218, 255, 16, 132, 4, 142, 123, 216, 219, 233, 248, 89]

/-- The compute-budget program identity
(`pubkey!("ComputeBudget111111111111111111111111111111")` in
`instructions.rs`). -/
def COMPUTE_BUDGET_PROGRAM_ID : List Nat :=
  [3, 6, 70, 111, 229, 33, 23, 50, 255, 236, 173, 186, 114, 195, 155, 231, 188, 140, 229, 187, 197, 247, 18, 107, 44, 67, 155, 58, 64, 0, 0, 0]

/-- The stake-deposit-receipt PDA derivation of `pda.rs`
(`derive_stake_deposit_receipt`): seeds are the owner bytes, the stake-pool
bytes, the nonce as 4 little-endian bytes and the literal
`stakeDepositReceipt`, keyed by the staking program's identity. -/
def derive_stake_deposit_receipt (owner stake_pool : List Nat) (nonce : Nat) :
    Option (List Nat × Nat) :=
  find_program_address
    [owner, stake_pool, u32_le nonce, asciiBytes "stakeDepositReceipt"]
    BONK_STAKE_PROGRAM_ID

/-- Modelled from the spec: the four-argument PDA derivation the CLI
binaries (`bin/stake.rs`, `bin/quick_stake.rs`) import from an older
library revision absent from `src/`; identical to
`derive_stake_deposit_receipt` but with the derivation key passed
explicitly. -/
def derive_stake_deposit_receipt4 (owner stake_pool : List Nat) (nonce : Nat)
    (program_id : List Nat) : Option (List Nat × Nat) :=
  find_program_address
    [owner, stake_pool, u32_le nonce, asciiBytes "stakeDepositReceipt"]
    program_id

/-- Modelled from the spec: the SPL associated-token-account address
(`get_associated_token_address`), a PDA of the wallet, token program and
mint under the associated-token program. -/
def get_associated_token_address (wallet mint : List Nat) : Option (List Nat) :=
  (find_program_address [wallet, TOKEN_PROGRAM_ID, mint] ASSOCIATED_TOKEN_PROGRAM_ID).map
    Prod.fst

/-- The user's BONK token account (`accounts.rs`, `get_user_bonk_ata`). -/
def get_user_bonk_ata (user : List Nat) : Option (List Nat) :=
  get_associated_token_address user BONK_MINT

/-- The user's stake token account (`accounts.rs`, `get_user_stake_ata`). -/
def get_user_stake_ata (user : List Nat) : Option (List Nat) :=
  get_associated_token_address user BONK_STAKE_MINT

/-- An account reference of an instruction (`solana_sdk`'s `AccountMeta`). -/
structure AccountMeta where
  pubkey : List Nat
  is_signer : Bool
  is_writable : Bool
deriving DecidableEq, Repr

/-- The writable account-reference constructor (`AccountMeta::new`). -/
def AccountMeta.new (pubkey : List Nat) (is_signer : Bool) : AccountMeta :=
  ⟨pubkey, is_signer, true⟩

/-- The read-only account-reference constructor
(`AccountMeta::new_readonly`). -/
def AccountMeta.new_readonly (pubkey : List Nat) (is_signer : Bool) : AccountMeta :=
  ⟨pubkey, is_signer, false⟩

/-- An instruction: target program, account references and opaque data. -/
structure Instruction where
  program_id : List Nat
  accounts : List AccountMeta
  data : List Nat
deriving DecidableEq, Repr

/-- The deposit (stake) instruction builder of `instructions.rs`
(`build_stake_instruction`).  The source unwraps the PDA derivations; the
embedding surfaces them as `Option`. -/
def build_stake_instruction (user : List Nat) (amount lock_duration : Nat)
    (nonce : Nat) : Option Instruction := do
  let (stake_deposit_receipt, _) ← derive_stake_deposit_receipt user BONK_STAKE_POOL nonce
  let user_bonk_ata ← get_user_bonk_ata user
  let user_stake_ata ← get_user_stake_ata user
  let data := [242, 35, 198, 137, 82, 225, 242, 182]
      ++ u32_le nonce ++ u64_le amount ++ u64_le lock_duration
  let accounts :=
    [AccountMeta.new user true,                          -- payer
     AccountMeta.new user true,                          -- owner
     AccountMeta.new user_bonk_ata false,                -- from
     AccountMeta.new BONK_VAULT false,                   -- vault
     AccountMeta.new BONK_STAKE_MINT false,              -- stake_mint
     AccountMeta.new user_stake_ata false,               -- destination
     AccountMeta.new BONK_STAKE_POOL false,              -- stake_pool
     AccountMeta.new stake_deposit_receipt false,        -- stake_deposit_receipt
     AccountMeta.new_readonly TOKEN_PROGRAM_ID false,    -- token_program
     AccountMeta.new_readonly SYSVAR_RENT_ID false,      -- rent
     AccountMeta.new_readonly SYSTEM_PROGRAM_ID false]   -- system_program
    ++ [AccountMeta.new BONK_REWARD_VAULT_0 false]       -- reward vault 0
  pure { program_id := BONK_STAKE_PROGRAM_ID, accounts := accounts, data := data }

/-- The compute-budget price instruction builder of `instructions.rs`
(`build_compute_budget_price_instruction`). -/
def build_compute_budget_price_instruction (micro_lamports : Nat) : Instruction :=
  { program_id := COMPUTE_BUDGET_PROGRAM_ID,
    accounts := [],
    data := [3] ++ u64_le micro_lamports }

/-- Modelled from the spec: the SPL `create_associated_token_account_idempotent`
instruction builder consumed by the client's stake flow. -/
def create_associated_token_account_idempotent
    (funding wallet mint token_program_id : List Nat) : Option Instruction := do
  let ata ← (find_program_address [wallet, token_program_id, mint]
      ASSOCIATED_TOKEN_PROGRAM_ID).map Prod.fst
  pure { program_id := ASSOCIATED_TOKEN_PROGRAM_ID,
         accounts :=
           [AccountMeta.new funding true,
            AccountMeta.new ata false,
            AccountMeta.new_readonly wallet false,
            AccountMeta.new_readonly mint false,
            AccountMeta.new_readonly SYSTEM_PROGRAM_ID false,
            AccountMeta.new_readonly token_program_id false],
         data := [1] }

/-- The error enumeration of `error.rs` (`BonkStakingError`); error payloads
that the client only ever forwards are kept as strings. -/
inductive BonkStakingError where
  | ClientError (msg : String)
  | DeserializationError
  | SerializationError (msg : String)
  | AccountNotFound (msg : String)
  | InvalidAccountData (msg : String)
  | TransactionFailed (msg : String)
  | InsufficientBalance (required available : Nat)
  | InvalidAmount (msg : String)
  | InvalidDuration (msg : String)
  | InvalidNonce (msg : String)
  | PdaDerivationError (msg : String)
deriving DecidableEq, Repr

/-- Equality on `Except` results is decidable componentwise. -/
instance {ε α : Type} [DecidableEq ε] [DecidableEq α] : DecidableEq (Except ε α) := fun x y =>
  match x, y with
  | .ok a, .ok b => if h : a = b then .isTrue (by rw [h]) else .isFalse (by simp [h])
  | .error e, .error f => if h : e = f then .isTrue (by rw [h]) else .isFalse (by simp [h])
  | .ok _, .error _ => .isFalse (by simp)
  | .error _, .ok _ => .isFalse (by simp)

/-- A transaction as assembled by `send_transaction`: the instruction list,
the paying signer and the blockhash it is built against. -/
structure Transaction where
  instructions : List Instruction
  payer : List Nat
  recent_blockhash : Nat
deriving DecidableEq, Repr

/-- One network call issued by the client, recorded with its argument. -/
inductive RpcCall where
  | getAccount (address : List Nat)
  | getTokenAccountBalance (address : List Nat)
  | getLatestBlockhash
  | sendAndConfirmTransaction (tx : Transaction)
deriving DecidableEq, Repr

/-- The blocking RPC collaborator, as an oracle: whether an account exists
at an address (`get_account` succeeds), the token-balance response (the
`amount` string of a `UiTokenAmount`, or a transport error), the latest
blockhash, and the send-and-confirm response. -/
structure Rpc where
  account_exists : List Nat → Bool
  token_account_balance : List Nat → Except String String
  latest_blockhash : Except String Nat
  send_and_confirm : Transaction → Except String Nat

/-- Parsing of a decimal `u64` from a string
(`str::parse::<u64>`): optional leading `+`, one or more ASCII digits, and
the value must fit in 64 bits. -/
def parseU64 (s : String) : Option Nat :=
  let ds := if s.startsWith "+" then (asciiBytes s).drop 1 else asciiBytes s
  if ds ≠ [] ∧ ds.all (fun d => 48 ≤ d ∧ d ≤ 57) then
    let n := ds.foldl (fun acc d => acc * 10 + (d - 48)) 0
    if n < 2 ^ 64 then some n else none
  else none

/-- The client's BONK balance query (`client.rs`, `get_bonk_balance`): on a
successful response the `amount` string is parsed with `unwrap_or(0)`; a
failed call yields `Ok(0)`.  Returns the result together with the network
calls issued; `none` embeds the panic of the unwrapped ATA derivation. -/
def get_bonk_balance (rpc : Rpc) (user : List Nat) :
    Option (Except BonkStakingError Nat × List RpcCall) := do
  let bonk_ata ← get_user_bonk_ata user
  pure (match rpc.token_account_balance bonk_ata with
        | .ok amount => .ok ((parseU64 amount).getD 0)
        | .error _ => .ok 0,
        [RpcCall.getTokenAccountBalance bonk_ata])

/-- The client's stake-token balance query (`client.rs`,
`get_stake_balance`), analogous to `get_bonk_balance`. -/
def get_stake_balance (rpc : Rpc) (user : List Nat) :
    Option (Except BonkStakingError Nat × List RpcCall) := do
  let stake_ata ← get_user_stake_ata user
  pure (match rpc.token_account_balance stake_ata with
        | .ok amount => .ok ((parseU64 amount).getD 0)
        | .error _ => .ok 0,
        [RpcCall.getTokenAccountBalance stake_ata])

/-- The loop of the client's `find_next_available_nonce` (`client.rs`),
probing nonces upward while fuel remains; exhaustion yields the
`InvalidNonce` error. -/
def find_next_available_nonce_aux (rpc : Rpc) (user : List Nat) :
    Nat → Nat → Option (Except BonkStakingError Nat × List RpcCall)
  | 0, _ => some (.error (.InvalidNonce "No available nonce found (0-99 all in use)"), [])
  | fuel + 1, nonce => do
      let (receipt_pda, _) ← derive_stake_deposit_receipt user BONK_STAKE_POOL nonce
      if rpc.account_exists receipt_pda then
        let (r, t) ← find_next_available_nonce_aux rpc user fuel (nonce + 1)
        pure (r, RpcCall.getAccount receipt_pda :: t)
      else
        pure (.ok nonce, [RpcCall.getAccount receipt_pda])

/-- The client's nonce probing (`client.rs`, `find_next_available_nonce`):
checks nonces 0 through 99 and returns the first whose derived receipt
address has no existing account, or the `InvalidNonce` error when all 100
are in use. -/
def find_next_available_nonce (rpc : Rpc) (user : List Nat) :
    Option (Except BonkStakingError Nat × List RpcCall) :=
  find_next_available_nonce_aux rpc user 100 0

/-- The client's transaction submission (`client.rs`, `send_transaction`):
fetch the latest blockhash, assemble and sign the transaction, and submit
it, mapping a submission failure to `TransactionFailed`. -/
def send_transaction (rpc : Rpc) (instructions : List Instruction)
    (signer : List Nat) : Except BonkStakingError Nat × List RpcCall :=
  match rpc.latest_blockhash with
  | .error e => (.error (.ClientError e), [RpcCall.getLatestBlockhash])
  | .ok recent_blockhash =>
    let tx : Transaction :=
      { instructions := instructions, payer := signer,
        recent_blockhash := recent_blockhash }
    match rpc.send_and_confirm tx with
    | .ok sig => (.ok sig, [RpcCall.getLatestBlockhash, RpcCall.sendAndConfirmTransaction tx])
    | .error e => (.error (.TransactionFailed e),
                   [RpcCall.getLatestBlockhash, RpcCall.sendAndConfirmTransaction tx])

/-- The tail of the client's stake operation after amount and duration
validation (`client.rs`, `BonkStakingClient::stake`): choose or probe the
nonce, check the BONK balance, then build and submit the transaction. -/
def stake_with_seconds (rpc : Rpc) (user : List Nat)
    (amount lock_duration_seconds : Nat) (nonce : Option Nat) :
    Option (Except BonkStakingError Nat × List RpcCall) := do
  let (nonce_result, t1) ←
    match nonce with
    | some n => pure ((.ok n : Except BonkStakingError Nat), ([] : List RpcCall))
    | none => find_next_available_nonce rpc user
  match nonce_result with
  | .error e => pure (.error e, t1)
  | .ok stake_nonce => do
    let (balance_result, t2) ← get_bonk_balance rpc user
    match balance_result with
    | .error e => pure (.error e, t1 ++ t2)
    | .ok bonk_balance =>
      if bonk_balance < amount then
        pure (.error (.InsufficientBalance amount bonk_balance), t1 ++ t2)
      else do
        let compute_budget_ix := build_compute_budget_price_instruction 5045
        let create_stake_ata_ix ← create_associated_token_account_idempotent
            user user BONK_STAKE_MINT TOKEN_PROGRAM_ID
        let stake_ix ← build_stake_instruction user amount lock_duration_seconds stake_nonce
        let (r, t3) := send_transaction rpc
            [compute_budget_ix, create_stake_ata_ix, stake_ix] user
        pure (r, t1 ++ t2 ++ t3)

/-- The client's stake operation (`client.rs`, `BonkStakingClient::stake`):
validate the amount, validate and convert the duration, then continue with
`stake_with_seconds`.  The keypair argument is represented by its public
key, the only part the control flow consumes; the result carries the
ordered list of network calls issued. -/
def stake (rpc : Rpc) (user : List Nat) (amount lock_duration_days : Nat)
    (nonce : Option Nat) : Option (Except BonkStakingError Nat × List RpcCall) :=
  if amount = 0 then
    pure (.error (.InvalidAmount "Amount must be greater than 0"), [])
  else
    match lock_duration_days with
    | 30 => stake_with_seconds rpc user amount (30 * 24 * 60 * 60) nonce
    | 90 => stake_with_seconds rpc user amount (90 * 24 * 60 * 60) nonce
    | 180 => stake_with_seconds rpc user amount (180 * 24 * 60 * 60) nonce
    | 365 => stake_with_seconds rpc user amount (365 * 24 * 60 * 60) nonce
    | _ => pure (.error (.InvalidDuration "Duration must be 30, 90, 180, or 365 days"), [])

/-- Modelled from the spec: the staking program identity string constant the
CLI binaries import from the older library revision absent from `src/`
(the spec names the staking program's identity as the derivation key). -/
def STAKE_PROGRAM_ID_STR : String := "STAKEkKzbdeKkqzKpLkNQD3SUuLgshDKCD7U8duxAbB"

/-- Modelled from the spec: the stake-pool identity string constant the CLI
binaries import from the older library revision absent from `src/`. -/
def BONK_STAKE_POOL_STR : String := "9AdEE8AAm1XgJrPEs4zkTPozr3o4U5iGbgvPwkNdLDJ3"

/-- The probing loop shared by the CLI binaries' nonce finders: probe
upward while fuel remains and return the sentinel 100 on exhaustion. -/
def bin_find_nonce_aux (account_exists : List Nat → Bool)
    (owner program_id stake_pool : List Nat) : Nat → Nat → Option Nat
  | 0, _ => some 100
  | fuel + 1, nonce => do
      let (receipt_pda, _) ← derive_stake_deposit_receipt4 owner stake_pool nonce program_id
      if account_exists receipt_pda then
        bin_find_nonce_aux account_exists owner program_id stake_pool fuel (nonce + 1)
      else
        pure nonce

/-- The nonce probing of `bin/stake.rs` (`find_available_nonce`): parse the
program and pool constants, probe nonces 0 through 99 against the account
oracle, and fall back to the bare value 100 when every probe finds an
existing account. -/
def find_available_nonce (account_exists : List Nat → Bool) (owner : List Nat) :
    Option Nat := do
  let program_id ← pubkeyFromBase58 STAKE_PROGRAM_ID_STR
  let stake_pool ← pubkeyFromBase58 BONK_STAKE_POOL_STR
  bin_find_nonce_aux account_exists owner program_id stake_pool 100 0

/-- The nonce probing of `bin/quick_stake.rs` (`find_next_available_nonce`),
textually identical to the one in `bin/stake.rs`. -/
def quick_stake_find_next_available_nonce (account_exists : List Nat → Bool)
    (owner : List Nat) : Option Nat := do
  let program_id ← pubkeyFromBase58 STAKE_PROGRAM_ID_STR
  let stake_pool ← pubkeyFromBase58 BONK_STAKE_POOL_STR
  bin_find_nonce_aux account_exists owner program_id stake_pool 100 0

/-! Specification-side predicates and concrete fixtures used to state and
witness the verified properties. -/

/-- Whether the receipt address derived for a nonce has an existing account
under the given RPC oracle (the condition on which the client's probing
loop keeps going). -/
def nonce_occupied (rpc : Rpc) (user : List Nat) (nonce : Nat) : Bool :=
  match derive_stake_deposit_receipt user BONK_STAKE_POOL nonce with
  | some (pda, _) => rpc.account_exists pda
  | none => false

/-- Whether the receipt address derived for a nonce derives successfully
and has no existing account (the condition on which the client's probing
loop stops). -/
def nonce_available (rpc : Rpc) (user : List Nat) (nonce : Nat) : Bool :=
  match derive_stake_deposit_receipt user BONK_STAKE_POOL nonce with
  | some (pda, _) => !rpc.account_exists pda
  | none => false

/-- The occupancy condition of the CLI binaries' probing loops, phrased
over the explicit program and pool arguments they pass. -/
def bin_nonce_occupied (account_exists : List Nat → Bool)
    (owner program_id stake_pool : List Nat) (nonce : Nat) : Bool :=
  match derive_stake_deposit_receipt4 owner stake_pool nonce program_id with
  | some (pda, _) => account_exists pda
  | none => false

/-- The owner key of the repository's regression tests
(`6tBou5MHL5aWpDy6cgf3wiwGGK2mR8qs68ujtpaoWrf2`). -/
def fixture_owner : List Nat :=
  [87, 103, 70, 246, 130, 161, 175, 27, 25, 159, 207, 221, 188, 113, 239, 26, 206, 41, 143, 7, 114, 105, 243, 46, 157, 82, 72, 33, 184, 166, 56, 201]

/-- The receipt address derived for `fixture_owner` and nonce 0. -/
def receiptPda0 : List Nat :=
  [213, 119, 244, 109, 104, 138, 36, 103, 83, 82, 6, 32, 130, 75, 68, 44, 99, 165, 63, 147, 164, 198, 241, 46, 31, 246, 225, 240, 15, 241, 0, 135]

/-- The receipt address derived for `fixture_owner` and nonce 1. -/
def receiptPda1 : List Nat :=
  [91, 129, 105, 136, 8, 94, 86, 205, 9, 103, 106, 233, 170, 40, 242, 1, 56, 213, 180, 212, 149, 101, 255, 153, 62, 220, 113, 204, 97, 12, 224, 166]

/-- The receipt address derived for `fixture_owner` and nonce 2. -/
def receiptPda2 : List Nat :=
  [190, 23, 18, 68, 170, 251, 157, 235, 186, 123, 170, 54, 207, 106, 143, 63, 128, 154, 29, 252, 94, 214, 188, 228, 236, 55, 166, 200, 113, 123, 55, 88]

/-- The receipt address derived for `fixture_owner` and nonce 3. -/
def receiptPda3 : List Nat :=
  [66, 236, 78, 62, 177, 167, 86, 94, 119, 43, 172, 219, 56, 141, 32, 0, 251, 30, 179, 99, 159, 144, 216, 75, 12, 231, 96, 138, 109, 170, 181, 11]

/-- The BONK associated token account of `fixture_owner`. -/
def ownerBonkAta : List Nat :=
  [183, 111, 43, 130, 133, 32, 11, 231, 217, 96, 161, 229, 0, 161, 53, 202, 56, 3, 183, 125, 169, 85, 46, 30, 194, 33, 188, 145, 35, 209, 186, 17]

/-- The stake-mint associated token account of `fixture_owner`. -/
def ownerStakeAta : List Nat :=
  [64, 150, 210, 122, 109, 133, 10, 44, 225, 5, 165, 159, 202, 70, 66, 222, 238, 248, 230, 110, 33, 154, 146, 65, 18, 131, 173, 146, 239, 253, 247, 168]

/-- An RPC oracle on which every account exists and every other call fails
with a transport error. -/
def rpcAllAccountsExist : Rpc :=
  { account_exists := fun _ => true,
    token_account_balance := fun _ => .error "node unreachable",
    latest_blockhash := .error "node unreachable",
    send_and_confirm := fun _ => .error "node unreachable" }

/-- An RPC oracle on which exactly the receipt addresses of nonces 0-3 of
`fixture_owner` exist. -/
def rpcFirstFourTaken : Rpc :=
  { account_exists := fun a =>
      [receiptPda0, receiptPda1, receiptPda2, receiptPda3].contains a,
    token_account_balance := fun _ => .error "node unreachable",
    latest_blockhash := .error "node unreachable",
    send_and_confirm := fun _ => .error "node unreachable" }

/-! Theorems. -/

/-- Each embedded byte-array constant decodes from the base58 literal
written in the source. -/
theorem constants_agree_with_base58_literals :
    pubkeyFromBase58 "DezXAZ8z7PnrnRJjz3wXBoRgixCa6xjnB7YaB1pPB263" = some BONK_MINT ∧
    pubkeyFromBase58 "STAKEkKzbdeKkqzKpLkNQD3SUuLgshDKCD7U8duxAbB" = some BONK_STAKE_PROGRAM_ID ∧
    pubkeyFromBase58 "9AdEE8AAm1XgJrPEs4zkTPozr3o4U5iGbgvPwkNdLDJ3" = some BONK_STAKE_POOL ∧
    pubkeyFromBase58 "4XHP9YQeeXPXHAjNXuKio1na1ypcxFSqFYBHtptQticd" = some BONK_VAULT ∧
    pubkeyFromBase58 "FYUjeMAFjbTzdMG91RSW5P4HT2sT7qzJQgDPiPG9ez9o" = some BONK_STAKE_MINT ∧
    pubkeyFromBase58 "2PPAJ8P5JgKZjkxq4h3kFSwLcuakFYr4fbV68jGghWxi" = some BONK_REWARD_VAULT_0 ∧
    pubkeyFromBase58 "TokenkegQfeZyiNwAJbNbGKPFXCWuBvf9Ss623VQ5DA" = some TOKEN_PROGRAM_ID ∧
    pubkeyFromBase58 "SysvarRent111111111111111111111111111111111" = some SYSVAR_RENT_ID ∧
    pubkeyFromBase58 "11111111111111111111111111111111" = some SYSTEM_PROGRAM_ID ∧
    pubkeyFromBase58 "ATokenGPvbdGVxr1b2hvZbsiqW5xWH25efTNsLJA8knL" = some ASSOCIATED_TOKEN_PROGRAM_ID ∧
    pubkeyFromBase58 "ComputeBudget111111111111111111111111111111" = some COMPUTE_BUDGET_PROGRAM_ID := by
  decide

/-- Folding append over a seed list into a tail appends the tail to the
fold into the empty list. -/
theorem foldr_append_eq_join_append (l : List (List Nat)) (t : List Nat) :
    l.foldr (· ++ ·) t = l.foldr (· ++ ·) [] ++ t := by
  induction l with
  | nil => simp
  | cons x xs ih => simp [ih, List.append_assoc]

/-- On at most 15 seeds of at most 32 bytes each, extended with a trial
byte, `create_program_address` is exactly the guarded hash of the joined
seeds, the trial byte, the program identity and the marker. -/
theorem create_program_address_bump (seeds : List (List Nat)) (pid : List Nat)
    (hlen : seeds.length ≤ 15) (hsz : ∀ s ∈ seeds, s.length ≤ 32) (b : Nat) :
    create_program_address (seeds ++ [[b]]) pid =
      if ed25519_is_on_curve (sha256 (seeds.foldr (· ++ ·) [] ++ [b] ++ pid ++ pdaMarker)) then
        .error .InvalidSeeds
      else
        .ok (sha256 (seeds.foldr (· ++ ·) [] ++ [b] ++ pid ++ pdaMarker)) := by
  unfold create_program_address
  have hguard : ¬((seeds ++ [[b]]).length > 16 ∨
      (seeds ++ [[b]]).any (fun s => s.length > 32) = true) := by
    simp only [List.length_append, List.any_eq_true, not_or]
    refine ⟨by simpa using Nat.add_le_add_right hlen 1, ?_⟩
    rintro ⟨s, hs, hgt⟩
    rcases List.mem_append.1 hs with hmem | hmem
    · exact absurd hgt (by simpa using Nat.not_lt.2 (hsz s hmem))
    · simp at hmem
      subst hmem
      simp at hgt
  rw [if_neg hguard]
  have hjoin : (seeds ++ [[b]]).foldr (· ++ ·) ([] : List Nat) =
      seeds.foldr (· ++ ·) [] ++ [b] := by
    rw [List.foldr_append, foldr_append_eq_join_append]
    simp
  rw [hjoin]

/-- The trial loop of the external derivation, when it returns, returns
the hash of the joined seeds extended with the returned trial byte (an
off-curve value), and every higher trial byte up to the starting one
hashes onto the curve. -/
theorem tryFindAux_some_spec (seeds : List (List Nat)) (pid : List Nat)
    (hlen : seeds.length ≤ 15) (hsz : ∀ s ∈ seeds, s.length ≤ 32) :
    ∀ fuel start address bump,
      tryFindAux seeds pid fuel start = some (address, bump) →
      bump ≤ start ∧
      address = sha256 (seeds.foldr (· ++ ·) [] ++ [bump] ++ pid ++ pdaMarker) ∧
      ed25519_is_on_curve address = false ∧
      ∀ b, bump < b → b ≤ start →
        ed25519_is_on_curve (sha256 (seeds.foldr (· ++ ·) [] ++ [b] ++ pid ++ pdaMarker)) = true := by
  intro fuel
  induction fuel with
  | zero =>
    intro start address bump h
    simp [tryFindAux] at h
  | succ fuel ih =>
    intro start address bump h
    rw [tryFindAux, create_program_address_bump seeds pid hlen hsz start] at h
    by_cases hcurve :
        ed25519_is_on_curve (sha256 (seeds.foldr (· ++ ·) [] ++ [start] ++ pid ++ pdaMarker)) = true
    · rw [if_pos hcurve] at h
      obtain ⟨hble, haddr, hoff, habove⟩ := ih (start - 1) address bump h
      refine ⟨by omega, haddr, hoff, ?_⟩
      intro b hb hble2
      by_cases hbs : b = start
      · subst hbs
        exact hcurve
      · exact habove b hb (by omega)
    · rw [if_neg hcurve] at h
      injection h with h
      injection h with haddr hbump
      subst haddr
      subst hbump
      refine ⟨le_refl _, rfl, by simpa using hcurve, ?_⟩
      intro b hb hble2
      omega

/-- C1: for every owner identity, stake-pool identity and 32-bit nonce, the
address derivation computes the program-derived address from the seed list
(owner bytes, pool bytes, nonce as 4 little-endian bytes, the exact
case-sensitive literal `stakeDepositReceipt`), keyed by the staking
program's identity, and returns the resulting address together with the
trial (bump) byte used: the address is the domain-separated hash of the
seeds extended with the returned trial byte, it is off-curve, and every
higher trial byte up to 255 hashes onto the curve. -/
theorem derive_stake_deposit_receipt_seed_contract
    (owner stake_pool : List Nat) (nonce : Nat) (address : List Nat) (bump : Nat)
    (howner : owner.length = 32) (hpool : stake_pool.length = 32)
    (h : derive_stake_deposit_receipt owner stake_pool nonce = some (address, bump)) :
    bump ≤ 255 ∧
    address = sha256 (owner ++ stake_pool ++ u32_le nonce ++
      asciiBytes "stakeDepositReceipt" ++ [bump] ++ BONK_STAKE_PROGRAM_ID ++ pdaMarker) ∧
    ed25519_is_on_curve address = false ∧
    ∀ b, bump < b → b ≤ 255 →
      ed25519_is_on_curve (sha256 (owner ++ stake_pool ++ u32_le nonce ++
        asciiBytes "stakeDepositReceipt" ++ [b] ++ BONK_STAKE_PROGRAM_ID ++ pdaMarker)) = true := by
  have hsz : ∀ s ∈ [owner, stake_pool, u32_le nonce, asciiBytes "stakeDepositReceipt"],
      s.length ≤ 32 := by
    intro s hs
    simp only [List.mem_cons, List.not_mem_nil, or_false] at hs
    rcases hs with h1 | h1 | h1 | h1 <;> subst h1
    · omega
    · omega
    · simp [u32_le]
    · decide
  have hspec := tryFindAux_some_spec
      [owner, stake_pool, u32_le nonce, asciiBytes "stakeDepositReceipt"]
      BONK_STAKE_PROGRAM_ID (by simp) hsz 255 255 address bump h
  simpa only [List.foldr_cons, List.foldr_nil, List.append_assoc, List.append_nil]
    using hspec

/-- Witness for C1 at the fixture owner, the fixed pool and nonce 3, where
the returned trial byte is 254 and the first trial byte 255 hashes onto
the curve. -/
theorem derive_stake_deposit_receipt_seed_contract_witness :
    derive_stake_deposit_receipt fixture_owner BONK_STAKE_POOL 3 = some (receiptPda3, 254) ∧
    receiptPda3 = sha256 (fixture_owner ++ BONK_STAKE_POOL ++ u32_le 3 ++
      asciiBytes "stakeDepositReceipt" ++ [254] ++ BONK_STAKE_PROGRAM_ID ++ pdaMarker) ∧
    ed25519_is_on_curve receiptPda3 = false ∧
    ed25519_is_on_curve (sha256 (fixture_owner ++ BONK_STAKE_POOL ++ u32_le 3 ++
      asciiBytes "stakeDepositReceipt" ++ [255] ++ BONK_STAKE_PROGRAM_ID ++ pdaMarker)) = true := by
  have hd : derive_stake_deposit_receipt fixture_owner BONK_STAKE_POOL 3 =
      some (receiptPda3, 254) := by decide
  have hs := derive_stake_deposit_receipt_seed_contract fixture_owner BONK_STAKE_POOL 3
      receiptPda3 254 (by decide) (by decide) hd
  exact ⟨hd, hs.2.1, hs.2.2.1, hs.2.2.2 255 (by decide) (by decide)⟩

/-- C4: parsing the fixed owner and pool from their textual forms, deriving
the receipt address for nonces 1 and 2, and rendering the results textually
reproduces the two recorded mainnet addresses byte-exactly (the regression
test of `pda.rs`). -/
theorem derive_fixture_addresses :
    ((pubkeyFromBase58 "6tBou5MHL5aWpDy6cgf3wiwGGK2mR8qs68ujtpaoWrf2").bind fun owner =>
      (pubkeyFromBase58 "9AdEE8AAm1XgJrPEs4zkTPozr3o4U5iGbgvPwkNdLDJ3").bind fun stake_pool =>
      (derive_stake_deposit_receipt owner stake_pool 1).map fun r => base58Encode r.1) =
      some "7ACZ6QNW4sR3v8ooQzvUrr4ZZ13wg4Dj4ouQSdEknWhj" ∧
    ((pubkeyFromBase58 "6tBou5MHL5aWpDy6cgf3wiwGGK2mR8qs68ujtpaoWrf2").bind fun owner =>
      (pubkeyFromBase58 "9AdEE8AAm1XgJrPEs4zkTPozr3o4U5iGbgvPwkNdLDJ3").bind fun stake_pool =>
      (derive_stake_deposit_receipt owner stake_pool 2).map fun r => base58Encode r.1) =
      some "Do2sHbcqswaLupdvjGiTZHh4U9GB3xF3HztsZoeLBmHh" := by
  decide

/-- The stake-instruction builder, when it returns, returns exactly the
instruction assembled from the three derived addresses. -/
theorem build_stake_instruction_eq (user : List Nat) (amount lock_duration nonce : Nat)
    (ix : Instruction) (h : build_stake_instruction user amount lock_duration nonce = some ix) :
    ∃ receipt bump bonk_ata stake_ata,
      derive_stake_deposit_receipt user BONK_STAKE_POOL nonce = some (receipt, bump) ∧
      get_user_bonk_ata user = some bonk_ata ∧
      get_user_stake_ata user = some stake_ata ∧
      ix = { program_id := BONK_STAKE_PROGRAM_ID,
             accounts :=
               [AccountMeta.new user true,
                AccountMeta.new user true,
                AccountMeta.new bonk_ata false,
                AccountMeta.new BONK_VAULT false,
                AccountMeta.new BONK_STAKE_MINT false,
                AccountMeta.new stake_ata false,
                AccountMeta.new BONK_STAKE_POOL false,
                AccountMeta.new receipt false,
                AccountMeta.new_readonly TOKEN_PROGRAM_ID false,
                AccountMeta.new_readonly SYSVAR_RENT_ID false,
                AccountMeta.new_readonly SYSTEM_PROGRAM_ID false,
                AccountMeta.new BONK_REWARD_VAULT_0 false],
             data := [242, 35, 198, 137, 82, 225, 242, 182]
               ++ u32_le nonce ++ u64_le amount ++ u64_le lock_duration } := by
  unfold build_stake_instruction at h
  cases hd : derive_stake_deposit_receipt user BONK_STAKE_POOL nonce with
  | none => rw [hd] at h; simp at h
  | some pr =>
    obtain ⟨receipt, bump⟩ := pr
    rw [hd] at h
    cases hba : get_user_bonk_ata user with
    | none => rw [hba] at h; simp at h
    | some bonk_ata =>
      rw [hba] at h
      cases hsa : get_user_stake_ata user with
      | none => rw [hsa] at h; simp at h
      | some stake_ata =>
        rw [hsa] at h
        refine ⟨receipt, bump, bonk_ata, stake_ata, rfl, rfl, rfl, ?_⟩
        cases ix
        simp at h
        simp [h]

/-- The builder succeeds at the fixture inputs of the repository's
instruction test. -/
theorem fixture_build_isSome :
    (build_stake_instruction fixture_owner 1000000 15552000 1).isSome = true := by
  decide

/-- C2: the data buffer produced by the stake-instruction builder is always
exactly 28 bytes: the fixed deposit tag, then the nonce as 4 little-endian
bytes, the amount as 8 little-endian bytes and the lock duration as 8
little-endian bytes, in that order. -/
theorem build_stake_instruction_data_layout (user : List Nat)
    (amount lock_duration nonce : Nat) (ix : Instruction)
    (h : build_stake_instruction user amount lock_duration nonce = some ix) :
    ix.data = [242, 35, 198, 137, 82, 225, 242, 182]
      ++ u32_le nonce ++ u64_le amount ++ u64_le lock_duration ∧
    ix.data.length = 28 := by
  obtain ⟨receipt, bump, bonk_ata, stake_ata, _, _, _, hix⟩ :=
    build_stake_instruction_eq user amount lock_duration nonce ix h
  subst hix
  exact ⟨rfl, by simp [u32_le, u64_le]⟩

/-- Witness for C2 at the fixture owner with the amount, duration and nonce
of the repository's instruction test. -/
theorem build_stake_instruction_data_layout_witness :
    (build_stake_instruction fixture_owner 1000000 15552000 1).map Instruction.data =
      some ([242, 35, 198, 137, 82, 225, 242, 182]
        ++ u32_le 1 ++ u64_le 1000000 ++ u64_le 15552000) ∧
    (build_stake_instruction fixture_owner 1000000 15552000 1).map
      (fun ix => ix.data.length) = some 28 := by
  cases h : build_stake_instruction fixture_owner 1000000 15552000 1 with
  | none => have hs := fixture_build_isSome; rw [h] at hs; simp at hs
  | some ix =>
    obtain ⟨h1, h2⟩ :=
      build_stake_instruction_data_layout fixture_owner 1000000 15552000 1 ix h
    simp [h1, h2, u32_le, u64_le]

/-- C3: the account list produced by the stake-instruction builder has
exactly 12 entries in the fixed order payer, owner, source token account,
vault, stake-mint, destination token account, stake pool, derived receipt,
token program, rent, system program, reward vault 0, and its 8th entry is
the address returned by the derivation for the same user, the fixed pool
and the same nonce. -/
theorem build_stake_instruction_account_order (user : List Nat)
    (amount lock_duration nonce : Nat) (ix : Instruction)
    (h : build_stake_instruction user amount lock_duration nonce = some ix) :
    ix.accounts.length = 12 ∧
    ∃ receipt bump bonk_ata stake_ata,
      derive_stake_deposit_receipt user BONK_STAKE_POOL nonce = some (receipt, bump) ∧
      get_user_bonk_ata user = some bonk_ata ∧
      get_user_stake_ata user = some stake_ata ∧
      ix.accounts.map AccountMeta.pubkey =
        [user, user, bonk_ata, BONK_VAULT, BONK_STAKE_MINT, stake_ata, BONK_STAKE_POOL,
         receipt, TOKEN_PROGRAM_ID, SYSVAR_RENT_ID, SYSTEM_PROGRAM_ID, BONK_REWARD_VAULT_0] ∧
      (ix.accounts.getD 7 (AccountMeta.new [] false)).pubkey = receipt := by
  obtain ⟨receipt, bump, bonk_ata, stake_ata, hd, hba, hsa, hix⟩ :=
    build_stake_instruction_eq user amount lock_duration nonce ix h
  subst hix
  exact ⟨rfl, receipt, bump, bonk_ata, stake_ata, hd, hba, hsa,
    by simp [AccountMeta.new, AccountMeta.new_readonly], rfl⟩

/-- Witness for C3 at the fixture owner and nonce 1, whose derived receipt
address is `receiptPda1`. -/
theorem build_stake_instruction_account_order_witness :
    (build_stake_instruction fixture_owner 1000000 15552000 1).map
      (fun ix => ix.accounts.length) = some 12 ∧
    (build_stake_instruction fixture_owner 1000000 15552000 1).map
      (fun ix => (ix.accounts.getD 7 (AccountMeta.new [] false)).pubkey) = some receiptPda1 ∧
    derive_stake_deposit_receipt fixture_owner BONK_STAKE_POOL 1 = some (receiptPda1, 255) := by
  have hd : derive_stake_deposit_receipt fixture_owner BONK_STAKE_POOL 1 =
      some (receiptPda1, 255) := by decide
  cases h : build_stake_instruction fixture_owner 1000000 15552000 1 with
  | none => have hs := fixture_build_isSome; rw [h] at hs; simp at hs
  | some ix =>
    obtain ⟨hlen, receipt, bump, bonk_ata, stake_ata, hd2, _, _, _, hgd⟩ :=
      build_stake_instruction_account_order fixture_owner 1000000 15552000 1 ix h
    rw [hd] at hd2
    simp only [Option.some.injEq, Prod.mk.injEq] at hd2
    obtain ⟨hr, _⟩ := hd2
    subst hr
    refine ⟨?_, ?_, hd⟩
    · show some ix.accounts.length = some 12
      rw [hlen]
    · show some ((ix.accounts.getD 7 (AccountMeta.new [] false)).pubkey) = some receiptPda1
      rw [hgd]

/-- C10 (implicit): in the account list built by the stake-instruction
builder, the first two entries (payer and owner) are the user's key; only
they are signers; entries 0 through 7 and entry 11 are writable and
entries 8, 9 and 10 are read-only. -/
theorem build_stake_instruction_signers_writable (user : List Nat)
    (amount lock_duration nonce : Nat) (ix : Instruction)
    (h : build_stake_instruction user amount lock_duration nonce = some ix) :
    (ix.accounts.map AccountMeta.pubkey).take 2 = [user, user] ∧
    ix.accounts.map AccountMeta.is_signer =
      [true, true, false, false, false, false, false, false, false, false, false, false] ∧
    ix.accounts.map AccountMeta.is_writable =
      [true, true, true, true, true, true, true, true, false, false, false, true] := by
  obtain ⟨receipt, bump, bonk_ata, stake_ata, _, _, _, hix⟩ :=
    build_stake_instruction_eq user amount lock_duration nonce ix h
  subst hix
  refine ⟨rfl, ?_, ?_⟩ <;> simp [AccountMeta.new, AccountMeta.new_readonly]

/-- Witness for C10 at the fixture owner and the test's inputs. -/
theorem build_stake_instruction_signers_writable_witness :
    (build_stake_instruction fixture_owner 1000000 15552000 1).map
      (fun ix => (ix.accounts.map AccountMeta.pubkey).take 2) =
      some [fixture_owner, fixture_owner] ∧
    (build_stake_instruction fixture_owner 1000000 15552000 1).map
      (fun ix => ix.accounts.map AccountMeta.is_signer) =
      some [true, true, false, false, false, false, false, false, false, false, false, false] ∧
    (build_stake_instruction fixture_owner 1000000 15552000 1).map
      (fun ix => ix.accounts.map AccountMeta.is_writable) =
      some [true, true, true, true, true, true, true, true, false, false, false, true] := by
  cases h : build_stake_instruction fixture_owner 1000000 15552000 1 with
  | none => have hs := fixture_build_isSome; rw [h] at hs; simp at hs
  | some ix =>
    obtain ⟨h1, h2, h3⟩ :=
      build_stake_instruction_signers_writable fixture_owner 1000000 15552000 1 ix h
    simp [h1, h2, h3]

/-- C6: staking an amount of zero fails with the invalid-amount validation
error before any network call: the result is the error and an empty list of
issued calls, for every RPC oracle, user, duration and nonce argument. -/
theorem stake_zero_amount_rejected (rpc : Rpc) (user : List Nat)
    (lock_duration_days : Nat) (nonce : Option Nat) :
    stake rpc user 0 lock_duration_days nonce =
      some (.error (.InvalidAmount "Amount must be greater than 0"), []) := rfl

/-- C9: when the token-balance RPC call fails (e.g. the token account does
not exist), both the BONK-balance and the stake-balance queries return a
successful zero rather than an error. -/
theorem balance_query_missing_account_zero (rpc : Rpc)
    (user bonk_ata stake_ata : List Nat) (e1 e2 : String)
    (hba : get_user_bonk_ata user = some bonk_ata)
    (hfail1 : rpc.token_account_balance bonk_ata = .error e1)
    (hsa : get_user_stake_ata user = some stake_ata)
    (hfail2 : rpc.token_account_balance stake_ata = .error e2) :
    (get_bonk_balance rpc user).map Prod.fst = some (.ok 0) ∧
    (get_stake_balance rpc user).map Prod.fst = some (.ok 0) := by
  unfold get_bonk_balance get_stake_balance
  rw [hba, hsa]
  simp [hfail1, hfail2]

/-- Witness for C9 at the fixture owner against an oracle whose balance
call always fails. -/
theorem balance_query_missing_account_zero_witness :
    (get_bonk_balance rpcAllAccountsExist fixture_owner).map Prod.fst = some (.ok 0) ∧
    (get_stake_balance rpcAllAccountsExist fixture_owner).map Prod.fst = some (.ok 0) :=
  balance_query_missing_account_zero rpcAllAccountsExist fixture_owner
    ownerBonkAta ownerStakeAta "node unreachable" "node unreachable"
    (by decide) rfl (by decide) rfl

/-- Every transaction submitted by the post-validation stake flow with an
explicit nonce consists of the compute-budget instruction, the idempotent
ATA-creation instruction and the stake instruction built with exactly the
lock-duration seconds the flow received. -/
theorem stake_with_seconds_send_shape (rpc : Rpc) (user : List Nat)
    (amount secs n : Nat) (r : Except BonkStakingError Nat) (t : List RpcCall)
    (h : stake_with_seconds rpc user amount secs (some n) = some (r, t))
    (tx : Transaction) (hmem : RpcCall.sendAndConfirmTransaction tx ∈ t) :
    ∃ cb ata stake_ix, tx.instructions = [cb, ata, stake_ix] ∧
      cb = build_compute_budget_price_instruction 5045 ∧
      create_associated_token_account_idempotent user user BONK_STAKE_MINT TOKEN_PROGRAM_ID
        = some ata ∧
      build_stake_instruction user amount secs n = some stake_ix := by
  unfold stake_with_seconds get_bonk_balance at h
  cases hba : get_user_bonk_ata user with
  | none => rw [hba] at h; simp at h
  | some bonk_ata =>
    rw [hba] at h
    simp only [Option.pure_def, Option.bind_eq_bind, Option.some_bind, List.nil_append] at h
    split at h
    case h_1 e heq =>
      cases htb : rpc.token_account_balance bonk_ata <;> rw [htb] at heq <;> simp at heq
    case h_2 bonk_balance heq =>
      split at h
      · simp only [Option.some.injEq, Prod.mk.injEq] at h
        obtain ⟨_, ht⟩ := h
        subst ht
        simp at hmem
      · cases hata : create_associated_token_account_idempotent user user
            BONK_STAKE_MINT TOKEN_PROGRAM_ID with
        | none => rw [hata] at h; simp at h
        | some ata =>
          rw [hata] at h
          cases hbuild : build_stake_instruction user amount secs n with
          | none => rw [hbuild] at h; simp at h
          | some stake_ix =>
            rw [hbuild] at h
            unfold send_transaction at h
            simp only [Option.pure_def, Option.bind_eq_bind, Option.some_bind] at h
            split at h
            case h_1 e2 heq2 =>
              simp only [Option.some.injEq, Prod.mk.injEq] at h
              obtain ⟨_, ht⟩ := h
              subst ht
              simp at hmem
            case h_2 bh heq2 =>
              split at h <;>
              · simp only [Option.some.injEq, Prod.mk.injEq] at h
                obtain ⟨_, ht⟩ := h
                subst ht
                simp at hmem
                exact ⟨build_compute_budget_price_instruction 5045, ata, stake_ix,
                  by rw [hmem], rfl, rfl, rfl⟩

/-- C7: with a nonzero amount, a lock-duration-in-days outside
{30, 90, 180, 365} fails with the invalid-duration validation error before
any network call, and for a value inside the set every transaction the
operation submits carries the stake instruction built with that number of
days converted to seconds (days times 86400). -/
theorem stake_duration_validation (rpc : Rpc) (user : List Nat) (amount n days : Nat)
    (hamount : amount ≠ 0) :
    (days ∉ ([30, 90, 180, 365] : List Nat) →
      stake rpc user amount days (some n) =
        some (.error (.InvalidDuration "Duration must be 30, 90, 180, or 365 days"), [])) ∧
    (days ∈ ([30, 90, 180, 365] : List Nat) →
      ∀ r t, stake rpc user amount days (some n) = some (r, t) →
        ∀ tx, RpcCall.sendAndConfirmTransaction tx ∈ t →
          ∃ cb ata stake_ix, tx.instructions = [cb, ata, stake_ix] ∧
            build_stake_instruction user amount (days * 86400) n = some stake_ix) := by
  constructor
  · intro hnot
    unfold stake
    rw [if_neg hamount]
    split <;> simp_all
  · intro hdays r t hstake tx htx
    simp only [List.mem_cons, List.not_mem_nil, or_false] at hdays
    unfold stake at hstake
    rw [if_neg hamount] at hstake
    rcases hdays with hd | hd | hd | hd <;> subst hd <;>
    · obtain ⟨cb, ata, stake_ix, h1, _, _, h4⟩ :=
        stake_with_seconds_send_shape rpc user amount _ n r t hstake tx htx
      exact ⟨cb, ata, stake_ix, h1, by simpa using h4⟩

/-- Witness for C7: duration 45 days with a nonzero amount is rejected with
the invalid-duration error and no network calls. -/
theorem stake_duration_validation_witness :
    stake rpcAllAccountsExist fixture_owner 5 45 (some 0) =
      some (.error (.InvalidDuration "Duration must be 30, 90, 180, or 365 days"), []) :=
  (stake_duration_validation rpcAllAccountsExist fixture_owner 5 0 45 (by decide)).1
    (by decide)

/-- When the client's probing loop returns a nonce, that nonce is at least
the starting one, its derived address is free, and every probed nonce
before it was occupied. -/
theorem find_aux_ok_spec (rpc : Rpc) (user : List Nat) :
    ∀ fuel start n t,
      find_next_available_nonce_aux rpc user fuel start = some (.ok n, t) →
      start ≤ n ∧ nonce_available rpc user n = true ∧
      ∀ m, start ≤ m → m < n → nonce_occupied rpc user m = true := by
  intro fuel
  induction fuel with
  | zero =>
    intro start n t h
    simp [find_next_available_nonce_aux] at h
  | succ fuel ih =>
    intro start n t h
    rw [find_next_available_nonce_aux] at h
    cases hd : derive_stake_deposit_receipt user BONK_STAKE_POOL start with
    | none => rw [hd] at h; simp at h
    | some pr =>
      obtain ⟨pda, b⟩ := pr
      rw [hd] at h
      simp only [Option.bind_eq_bind, Option.some_bind] at h
      by_cases hex : rpc.account_exists pda = true
      · rw [if_pos hex] at h
        cases haux : find_next_available_nonce_aux rpc user fuel (start + 1) with
        | none => rw [haux] at h; simp at h
        | some rt =>
          obtain ⟨r, t2⟩ := rt
          rw [haux] at h
          simp only [Option.bind_eq_bind, Option.some_bind, Option.pure_def,
            Option.some.injEq, Prod.mk.injEq] at h
          obtain ⟨hr, ht⟩ := h
          subst hr
          obtain ⟨h1, h2, h3⟩ := ih (start + 1) n t2 haux
          refine ⟨by omega, h2, ?_⟩
          intro m hm1 hm2
          by_cases hms : m = start
          · subst hms
            simp [nonce_occupied, hd, hex]
          · exact h3 m (by omega) hm2
      · rw [if_neg hex] at h
        simp only [Option.pure_def, Option.some.injEq, Prod.mk.injEq,
          Except.ok.injEq] at h
        obtain ⟨hn, ht⟩ := h
        subst hn
        refine ⟨le_refl _, by simp [nonce_available, hd, hex], ?_⟩
        intro m hm1 hm2
        omega

/-- When every nonce from the start up to a free target is occupied and
the target derives to a free address within the fuel bound, the client's
probing loop returns exactly the target. -/
theorem find_aux_finds (rpc : Rpc) (user : List Nat) :
    ∀ fuel start target,
      start ≤ target → target < start + fuel →
      (∀ m, start ≤ m → m < target → nonce_occupied rpc user m = true) →
      nonce_available rpc user target = true →
      (find_next_available_nonce_aux rpc user fuel start).map Prod.fst =
        some (.ok target) := by
  intro fuel
  induction fuel with
  | zero =>
    intro start target h1 h2 _ _
    omega
  | succ fuel ih =>
    intro start target h1 h2 hocc havail
    rw [find_next_available_nonce_aux]
    by_cases hst : start = target
    · subst hst
      unfold nonce_available at havail
      cases hd : derive_stake_deposit_receipt user BONK_STAKE_POOL start with
      | none => rw [hd] at havail; simp at havail
      | some pr =>
        obtain ⟨pda, b⟩ := pr
        rw [hd] at havail
        simp at havail
        simp [hd, havail]
    · have hocc0 := hocc start (le_refl _) (by omega)
      unfold nonce_occupied at hocc0
      cases hd : derive_stake_deposit_receipt user BONK_STAKE_POOL start with
      | none => rw [hd] at hocc0; simp at hocc0
      | some pr =>
        obtain ⟨pda, b⟩ := pr
        rw [hd] at hocc0
        simp at hocc0
        have hrec := ih (start + 1) target (by omega) (by omega)
          (fun m hm1 hm2 => hocc m (by omega) hm2) havail
        cases haux : find_next_available_nonce_aux rpc user fuel (start + 1) with
        | none => rw [haux] at hrec; simp at hrec
        | some rt =>
          obtain ⟨r, t2⟩ := rt
          rw [haux] at hrec
          simp at hrec
          simp [hd, hocc0, haux, hrec]

/-- When every nonce probed within the fuel bound is occupied, the
client's probing loop exhausts and returns the invalid-nonce error. -/
theorem find_aux_exhausted (rpc : Rpc) (user : List Nat) :
    ∀ fuel start,
      (∀ m, start ≤ m → m < start + fuel → nonce_occupied rpc user m = true) →
      (find_next_available_nonce_aux rpc user fuel start).map Prod.fst =
        some (.error (.InvalidNonce "No available nonce found (0-99 all in use)")) := by
  intro fuel
  induction fuel with
  | zero =>
    intro start _
    simp [find_next_available_nonce_aux]
  | succ fuel ih =>
    intro start hocc
    rw [find_next_available_nonce_aux]
    have hocc0 := hocc start (le_refl _) (by omega)
    unfold nonce_occupied at hocc0
    cases hd : derive_stake_deposit_receipt user BONK_STAKE_POOL start with
    | none => rw [hd] at hocc0; simp at hocc0
    | some pr =>
      obtain ⟨pda, b⟩ := pr
      rw [hd] at hocc0
      simp at hocc0
      have hrec := ih (start + 1) (fun m hm1 hm2 => hocc m (by omega) (by omega))
      cases haux : find_next_available_nonce_aux rpc user fuel (start + 1) with
      | none => rw [haux] at hrec; simp at hrec
      | some rt =>
        obtain ⟨r, t2⟩ := rt
        rw [haux] at hrec
        simp at hrec
        simp [hd, hocc0, haux, hrec]

/-- When every nonce probed within the fuel bound is occupied, the CLI
binaries' probing loop exhausts and returns the sentinel 100. -/
theorem bin_aux_exhausted (account_exists : List Nat → Bool)
    (owner program_id stake_pool : List Nat) :
    ∀ fuel start,
      (∀ m, start ≤ m → m < start + fuel →
        bin_nonce_occupied account_exists owner program_id stake_pool m = true) →
      bin_find_nonce_aux account_exists owner program_id stake_pool fuel start = some 100 := by
  intro fuel
  induction fuel with
  | zero =>
    intro start _
    simp [bin_find_nonce_aux]
  | succ fuel ih =>
    intro start hocc
    rw [bin_find_nonce_aux]
    have hocc0 := hocc start (le_refl _) (by omega)
    unfold bin_nonce_occupied at hocc0
    cases hd : derive_stake_deposit_receipt4 owner stake_pool start program_id with
    | none => rw [hd] at hocc0; simp at hocc0
    | some pr =>
      obtain ⟨pda, b⟩ := pr
      rw [hd] at hocc0
      simp at hocc0
      have hrec := ih (start + 1) (fun m hm1 hm2 => hocc m (by omega) (by omega))
      simp [hd, hocc0, hrec]

/-- C8: the client's nonce selection probes linearly from zero: whenever it
returns a nonce, that nonce's derived receipt address is free and the
derived addresses of all smaller nonces exist; and whenever nonces 0
through 3 are occupied and nonce 4 is free, it returns 4. -/
theorem find_next_available_nonce_first_free (rpc : Rpc) (user : List Nat) :
    (∀ n t, find_next_available_nonce rpc user = some (.ok n, t) →
      nonce_available rpc user n = true ∧
      ∀ m, m < n → nonce_occupied rpc user m = true) ∧
    ((∀ m, m < 4 → nonce_occupied rpc user m = true) →
      nonce_available rpc user 4 = true →
      (find_next_available_nonce rpc user).map Prod.fst = some (.ok 4)) := by
  constructor
  · intro n t h
    obtain ⟨_, h2, h3⟩ := find_aux_ok_spec rpc user 100 0 n t h
    exact ⟨h2, fun m hm => h3 m (Nat.zero_le m) hm⟩
  · intro hocc havail
    exact find_aux_finds rpc user 100 0 4 (by omega) (by omega)
      (fun m _ hm2 => hocc m hm2) havail

/-- Witness for C8: against an oracle on which exactly the receipt
addresses of nonces 0-3 exist, probing for the fixture owner returns
nonce 4. -/
theorem find_next_available_nonce_first_free_witness :
    (find_next_available_nonce rpcFirstFourTaken fixture_owner).map Prod.fst =
      some (.ok 4) :=
  (find_next_available_nonce_first_free rpcFirstFourTaken fixture_owner).2
    (by decide) (by decide)

/-- C5 (amended): all three nonce-probing routines stop at the bound 100;
when every probed nonce is occupied, the CLI binaries' routines return the
bare sentinel value 100, while the library client's routine instead fails
with the invalid-nonce error. -/
theorem nonce_probe_exhaustion_behavior (rpc : Rpc) (user : List Nat)
    (hocc : ∀ n, n < 100 → nonce_occupied rpc user n = true) :
    find_available_nonce rpc.account_exists user = some 100 ∧
    quick_stake_find_next_available_nonce rpc.account_exists user = some 100 ∧
    (find_next_available_nonce rpc user).map Prod.fst =
      some (.error (.InvalidNonce "No available nonce found (0-99 all in use)")) := by
  have hpid : pubkeyFromBase58 STAKE_PROGRAM_ID_STR = some BONK_STAKE_PROGRAM_ID :=
    constants_agree_with_base58_literals.2.1
  have hpool : pubkeyFromBase58 BONK_STAKE_POOL_STR = some BONK_STAKE_POOL :=
    constants_agree_with_base58_literals.2.2.1
  have hbin : bin_find_nonce_aux rpc.account_exists user BONK_STAKE_PROGRAM_ID
      BONK_STAKE_POOL 100 0 = some 100 :=
    bin_aux_exhausted rpc.account_exists user BONK_STAKE_PROGRAM_ID BONK_STAKE_POOL 100 0
      (fun m _ hm2 => by
        simpa [bin_nonce_occupied, nonce_occupied, derive_stake_deposit_receipt4,
          derive_stake_deposit_receipt] using hocc m (by omega))
  refine ⟨?_, ?_, find_aux_exhausted rpc user 100 0 (fun m _ hm2 => hocc m (by omega))⟩
  · simp only [find_available_nonce, Option.bind_eq_bind, hpid, hpool, Option.some_bind]
    exact hbin
  · simp only [quick_stake_find_next_available_nonce, Option.bind_eq_bind, hpid, hpool,
      Option.some_bind]
    exact hbin

/-- Every nonce from 0 through 99 derives successfully for the fixture
owner and is occupied on the oracle on which every account exists. -/
theorem fixture_all_nonces_occupied :
    ∀ n, n < 100 → nonce_occupied rpcAllAccountsExist fixture_owner n = true := by
  decide

/-- Counterexample to C5 as stated: on exhaustion (every nonce 0-99
occupied) the library client's probing routine does not return the
sentinel 100: it fails with the invalid-nonce error. -/
theorem client_nonce_exhaustion_errors :
    (find_next_available_nonce rpcAllAccountsExist fixture_owner).map Prod.fst =
      some (.error (.InvalidNonce "No available nonce found (0-99 all in use)")) ∧
    (find_next_available_nonce rpcAllAccountsExist fixture_owner).map Prod.fst ≠
      some (.ok 100) := by
  have h : (find_next_available_nonce rpcAllAccountsExist fixture_owner).map Prod.fst =
      some (.error (.InvalidNonce "No available nonce found (0-99 all in use)")) :=
    find_aux_exhausted rpcAllAccountsExist fixture_owner 100 0
      (fun m _ hm2 => fixture_all_nonces_occupied m (by omega))
  exact ⟨h, by rw [h]; simp⟩

/-- Witness for the amended C5 at the fixture owner on the oracle on which
every account exists. -/
theorem nonce_probe_exhaustion_behavior_witness :
    find_available_nonce rpcAllAccountsExist.account_exists fixture_owner = some 100 ∧
    quick_stake_find_next_available_nonce rpcAllAccountsExist.account_exists fixture_owner
      = some 100 ∧
    (find_next_available_nonce rpcAllAccountsExist fixture_owner).map Prod.fst =
      some (.error (.InvalidNonce "No available nonce found (0-99 all in use)")) :=
  nonce_probe_exhaustion_behavior rpcAllAccountsExist fixture_owner
    fixture_all_nonces_occupied

end BonkStaking
